import Mathlib

/-!
Verification development for the algorithmic trading backtesting system.

The simulation engine (`src/core/backtesting_engine.py`) is embedded over `ℚ`:
Python floats are modelled as exact rationals, a `NaN` price/signal/indicator
is modelled as `Option.none`, and the two places where Python float division
can raise `ZeroDivisionError` (buying at price `0.0`, and the total-return
computation in `_generate_summary` when `initial_capital == 0.0`) are modelled
explicitly with the `RunError.zeroDivision` outcome.  The per-run ledger store
(`DatabaseManager`) is modelled as the in-emission-order lists of trade and
snapshot records carried inside `EngineState`.

The metrics engine (`src/core/performance_analyzer.py`) is embedded in the
second half of the file; computations that stay inside field operations are
over `ℚ`, while the annualisation/volatility computations that use `sqrt` and
a real exponent are over `ℝ`.
-/

/-- Trade side, the `trade_type` column (`'BUY'` / `'SELL'`). -/
inductive TType where
  | buy
  | sell
deriving DecidableEq, Repr

/-- Errors a backtest run can raise: `ValueError` on missing columns
(the spec's `InvalidInputError`) and Python `ZeroDivisionError`. -/
inductive RunError where
  | missingColumns
  | zeroDivision
deriving DecidableEq, Repr

/-- One row of the signal series.  `none` in `price`, `middleBand` or
`signal` models a NaN/missing float value; dates are abstracted to `ℕ`
(the code only ever orders and compares them). -/
structure SignalRow where
  date : ℕ
  price : Option ℚ
  middleBand : Option ℚ
  signal : Option ℚ
deriving DecidableEq, Repr

/-- The signals DataFrame: column-presence flags (checked by
`run_backtest`) plus the rows. -/
structure SignalFrame where
  hasPriceCol : Bool
  hasSignalCol : Bool
  rows : List SignalRow
deriving DecidableEq, Repr

/-- A row of the `trades` table, as written by `DatabaseManager.log_trade`. -/
structure TradeRec where
  date : ℕ
  ttype : TType
  price : ℚ
  shares : ℚ
  cashChange : ℚ
  portfolioValue : ℚ
deriving DecidableEq, Repr

/-- A row of the `portfolio_history` table, as written by
`DatabaseManager.log_portfolio_status`. -/
structure SnapRec where
  date : ℕ
  cash : ℚ
  holdingsValue : ℚ
  totalValue : ℚ
  sharesHeld : ℚ
  price : ℚ
deriving DecidableEq, Repr

/-- The mutable fields of `BacktestingEngine` together with the ledger
store contents (`trades` / `snapshots` lists, in emission order). -/
structure EngineState where
  initialCapital : ℚ
  cash : ℚ
  positionShares : ℚ
  entryPrice : ℚ
  lastPortfolioValue : ℚ
  tradesExecuted : ℕ
  winningTrades : ℕ
  losingTrades : ℕ
  trades : List TradeRec
  snapshots : List SnapRec
deriving DecidableEq, Repr

/-- `BacktestingEngine.__init__(initial_capital)` with an empty store. -/
def initEngine (cap : ℚ) : EngineState :=
  { initialCapital := cap
    cash := cap
    positionShares := 0
    entryPrice := 0
    lastPortfolioValue := cap
    tradesExecuted := 0
    winningTrades := 0
    losingTrades := 0
    trades := []
    snapshots := [] }

/-- A pluggable exit policy: `strategy.get_exit_condition(current_price,
position_entry_price, row_data)`. -/
def ExitPolicy : Type := ℚ → ℚ → SignalRow → Bool

/-- The default exit condition of `_check_exit_conditions`: exit when
`price >= middle_band`, no exit when the indicator is missing/NaN. -/
def defaultExit (p : ℚ) (_entry : ℚ) (row : SignalRow) : Bool :=
  match row.middleBand with
  | some mb => decide (mb ≤ p)
  | none => false

/-- `BacktestingEngine._execute_buy`: no-op when `cash <= 0`; otherwise
buys `cash / price` shares with all available cash, logs a BUY record and
increments `trades_executed`.  `price = 0` models Python's
`ZeroDivisionError` on `self.cash / self.current_price`. -/
def executeBuy (s : EngineState) (d : ℕ) (p : ℚ) : Except RunError EngineState :=
  if s.cash ≤ 0 then .ok s
  else if p = 0 then .error .zeroDivision
  else
    let sharesToBuy := s.cash / p
    let cashSpent := sharesToBuy * p
    .ok { s with
      cash := 0
      positionShares := sharesToBuy
      entryPrice := p
      trades := s.trades ++
        [{ date := d, ttype := .buy, price := p, shares := sharesToBuy,
           cashChange := -cashSpent, portfolioValue := 0 + sharesToBuy * p }]
      tradesExecuted := s.tradesExecuted + 1 }

/-- `BacktestingEngine._execute_sell`: no-op when `position_shares <= 0`;
otherwise sells all shares, classifies win/loss by `current_price >
entry_price`, logs a SELL record and increments `trades_executed`. -/
def executeSell (s : EngineState) (d : ℕ) (p : ℚ) : EngineState :=
  if s.positionShares ≤ 0 then s
  else
    let cashReceived := s.positionShares * p
    let sharesSold := s.positionShares
    let newCash := s.cash + cashReceived
    { s with
      winningTrades := if s.entryPrice < p then s.winningTrades + 1 else s.winningTrades
      losingTrades := if s.entryPrice < p then s.losingTrades else s.losingTrades + 1
      cash := newCash
      positionShares := 0
      trades := s.trades ++
        [{ date := d, ttype := .sell, price := p, shares := sharesSold,
           cashChange := cashReceived, portfolioValue := newCash + 0 * p }]
      tradesExecuted := s.tradesExecuted + 1 }

/-- `BacktestingEngine._check_exit_conditions`: the strategy hook when
present, the middle-band default otherwise; sells when it fires. -/
def checkExit (pol : Option ExitPolicy) (s : EngineState) (row : SignalRow)
    (p : ℚ) : EngineState :=
  let shouldExit :=
    match pol with
    | some f => f p s.entryPrice row
    | none => defaultExit p s.entryPrice row
  if shouldExit then executeSell s row.date p else s

/-- `BacktestingEngine._update_portfolio_status`: append one snapshot
marking holdings to the period price and remember the total value. -/
def updateStatus (s : EngineState) (d : ℕ) (p : ℚ) : EngineState :=
  let holdings := s.positionShares * p
  let total := s.cash + holdings
  { s with
    snapshots := s.snapshots ++
      [{ date := d, cash := s.cash, holdingsValue := holdings,
         totalValue := total, sharesHeld := s.positionShares, price := p }]
    lastPortfolioValue := total }

/-- One iteration of the main loop of `run_backtest`: skip NaN prices,
exits first while holding, else a Buy on signal `1.0`, then the
end-of-period portfolio update. -/
def engineStep (pol : Option ExitPolicy) (s : EngineState) (row : SignalRow) :
    Except RunError EngineState :=
  match row.price with
  | none => .ok s
  | some p =>
    if 0 < s.positionShares then
      .ok (updateStatus (checkExit pol s row p) row.date p)
    else if row.signal = some 1 then
      match executeBuy s row.date p with
      | .ok s1 => .ok (updateStatus s1 row.date p)
      | .error e => .error e
    else
      .ok (updateStatus s row.date p)

/-- The main loop over the remaining rows; an exception aborts the loop,
returning the state at the moment it was raised. -/
def runLoop (pol : Option ExitPolicy) :
    EngineState → List SignalRow → Option RunError × EngineState
  | s, [] => (none, s)
  | s, r :: rs =>
    match engineStep pol s r with
    | .ok s1 => runLoop pol s1 rs
    | .error e => (some e, s)

/-- The summary dict built by `BacktestingEngine._generate_summary`. -/
structure RunSummary where
  initialCapital : ℚ
  finalPortfolioValue : ℚ
  totalReturnPct : ℚ
  totalTrades : ℕ
  winningTrades : ℕ
  losingTrades : ℕ
  winRatePct : ℚ
  profitLoss : ℚ
deriving DecidableEq, Repr

/-- `BacktestingEngine._generate_summary`.  `initial_capital = 0` models
Python's `ZeroDivisionError` in the `total_return` division. -/
def generateSummary (s : EngineState) : Except RunError RunSummary :=
  if s.initialCapital = 0 then .error .zeroDivision
  else
    .ok { initialCapital := s.initialCapital
          finalPortfolioValue := s.lastPortfolioValue
          totalReturnPct :=
            (s.lastPortfolioValue - s.initialCapital) / s.initialCapital * 100
          totalTrades := s.tradesExecuted
          winningTrades := s.winningTrades
          losingTrades := s.losingTrades
          winRatePct :=
            if 0 < s.tradesExecuted then
              ((s.winningTrades : ℚ) / ((max s.tradesExecuted 1 : ℕ) : ℚ)) * 100
            else 0
          profitLoss := s.lastPortfolioValue - s.initialCapital }

/-- The prologue of `run_backtest`: `db_manager.clear_data()` followed by
the portfolio-state reset (lines 74-81).  Note `entry_price` and
`last_portfolio_value` are not reset by the source. -/
def clearAndReset (s : EngineState) : EngineState :=
  { s with
    trades := []
    snapshots := []
    cash := s.initialCapital
    positionShares := 0
    tradesExecuted := 0
    winningTrades := 0
    losingTrades := 0 }

/-- Epilogue of `run_backtest`: turn the loop outcome into the returned
summary (or propagate the pending exception), leaving the engine state as
the loop left it. -/
def finishRun (pr : Option RunError × EngineState) :
    Except RunError RunSummary × EngineState :=
  match pr with
  | (none, s2) =>
    match generateSummary s2 with
    | .ok sum => (.ok sum, s2)
    | .error e => (.error e, s2)
  | (some e, s2) => (.error e, s2)

/-- `BacktestingEngine.run_backtest`: clear the store and reset the
portfolio, then validate the required columns, then iterate from the
second row on (`signals_df.iloc[1:]`), then generate the summary.
Returns the outcome together with the engine state it left behind. -/
def runBacktest (s0 : EngineState) (pol : Option ExitPolicy)
    (df : SignalFrame) : Except RunError RunSummary × EngineState :=
  let s1 := clearAndReset s0
  if df.hasPriceCol && df.hasSignalCol then
    finishRun (runLoop pol s1 (df.rows.drop 1))
  else
    (.error .missingColumns, s1)

/-!
### Metrics engine (`src/core/performance_analyzer.py`)

The analyzer reads the stored snapshot history (here: the `total_value`
column in date order, a `List ℚ`) and the stored trade list (here: a
`List ATrade`, ordered by `trade_date` as `get_trades` returns it), and
keeps the previously computed metrics in `self.metrics`; that cache is the
`prev : Option MetricsResult` argument because `_calculate_risk_metrics`
reads `self.metrics.get('annualized_return', 0)` before the new metrics
are stored.  Python float values are modelled as exact numbers: `ℚ` where
the code stays inside field operations and `ℝ` where `sqrt` or a real
exponent is used.  `float('inf')` outcomes are modelled by a dedicated
constructor (`SortinoVal.posInf`, and `none` for the profit factor).
-/

/-- A row of the `trades` table as the analyzer consumes it
(`trade_date` index, `trade_type`, `price`, `shares`). -/
structure ATrade where
  date : ℕ
  ttype : TType
  price : ℚ
  shares : ℚ
deriving DecidableEq, Repr

/-- The value of the `sortino_ratio` entry: absent when fewer than two
return observations exist (the early-return dict of
`_calculate_risk_metrics` has no such key), `posInf` models
`float('inf')`. -/
inductive SortinoVal where
  | missing
  | posInf
  | val (r : ℝ)

/-- The combined metrics dict built by `analyze_performance`. -/
structure MetricsResult where
  initialCapital : ℚ
  finalValue : ℚ
  totalReturnPct : ℚ
  annualizedReturn : ℝ
  totalDays : ℕ
  avgDailyReturn : ℚ
  dailyVol : ℝ
  annualizedVol : ℝ
  sharpe : ℝ
  sortino : SortinoVal
  totalTrades : ℕ
  winCount : ℕ
  lossCount : ℕ
  winRatePct : ℚ
  avgWin : ℚ
  avgLoss : ℚ
  profitFactor : Option ℚ
  largestWin : ℚ
  largestLoss : ℚ
  maxDrawdown : ℚ
  currentDrawdown : ℚ
  avgDrawdown : ℚ

/-- `Series.pct_change().dropna()` on the total-value column. -/
def pctChange : List ℚ → List ℚ
  | a :: b :: rest => (b - a) / a :: pctChange (b :: rest)
  | _ => []

/-- `Series.mean()`.  (For the empty series pandas yields NaN; here the
`0 / 0 = 0` convention of `ℚ` applies, a case no settled claim relies
on.) -/
def listMean (l : List ℚ) : ℚ := l.sum / (l.length : ℚ)

/-- `Series.std() ** 2`: the sample variance with `ddof = 1`, as pandas
computes it.  (`length < 2` gives NaN in pandas; here division by zero
yields `0`, a case the code guards before using the value.) -/
def sampleVar (l : List ℚ) : ℚ :=
  (l.map (fun x => (x - listMean l) ^ 2)).sum / ((l.length : ℚ) - 1)

/-- `Series.std()`, the sample standard deviation. -/
noncomputable def sampleStd (l : List ℚ) : ℝ :=
  Real.sqrt ((sampleVar l : ℚ) : ℝ)

/-- `annualized_volatility = daily_returns.std() * np.sqrt(252) * 100`,
with the `len(daily_returns) < 2` early return of
`_calculate_risk_metrics`. -/
noncomputable def annualizedVolOf (snaps : List ℚ) : ℝ :=
  if (pctChange snaps).length < 2 then 0
  else sampleStd (pctChange snaps) * Real.sqrt 252 * 100

/-- The Sharpe ratio computed by `_calculate_risk_metrics`: note the
numerator uses `prevAnn`, the cached `self.metrics.get('annualized_return',
0)` from before the current call stores its results. -/
noncomputable def sharpeOf (snaps : List ℚ) (rf : ℚ) (prevAnn : ℝ) : ℝ :=
  if (pctChange snaps).length < 2 then 0
  else if 0 < annualizedVolOf snaps then
    (prevAnn - (rf : ℝ) * 100) / annualizedVolOf snaps
  else 0

/-- The Sortino ratio of `_calculate_risk_metrics`, again reading the
cached annualized return. -/
noncomputable def sortinoOf (snaps : List ℚ) (rf : ℚ) (prevAnn : ℝ) : SortinoVal :=
  if (pctChange snaps).length < 2 then .missing
  else
    let negs := (pctChange snaps).filter (fun x => x < 0)
    if 0 < negs.length then
      if 0 < sampleStd negs * Real.sqrt 252 * 100 then
        .val ((prevAnn - (rf : ℝ) * 100) / (sampleStd negs * Real.sqrt 252 * 100))
      else .val 0
    else
      if (rf : ℝ) * 100 < prevAnn then .posInf else .val 0

/-- `total_return` of `_calculate_basic_metrics`. -/
def totalReturnOf (snaps : List ℚ) : ℚ :=
  (snaps.getLastD 0 - snaps.headI) / snaps.headI * 100

/-- `annualized_return = ((final / initial) ** (252 / days) - 1) * 100`
when `days > 1`, else `0`. -/
noncomputable def annualizedReturnOf (snaps : List ℚ) : ℝ :=
  if 1 < snaps.length then
    (((snaps.getLastD 0 / snaps.headI : ℚ) : ℝ) ^
      ((252 : ℝ) / (snaps.length : ℝ)) - 1) * 100
  else 0

/-- `BUY` rows of the trades table, in stored order. -/
def buysOf (ts : List ATrade) : List ATrade :=
  ts.filter (fun t => t.ttype = TType.buy)

/-- `SELL` rows of the trades table, in stored order. -/
def sellsOf (ts : List ATrade) : List ATrade :=
  ts.filter (fun t => t.ttype = TType.sell)

/-- The buy paired with a sell by `_calculate_trade_metrics`:
`buy_trades[buy_trades.index < sell_trade.name].iloc[-1]`, i.e. the last
stored BUY whose date is strictly before the sell's date. -/
def pairBuy (ts : List ATrade) (s : ATrade) : Option ATrade :=
  ((buysOf ts).filter (fun b => b.date < s.date)).getLast?

/-- The P&L contribution of one sell:
`(sell.price - buy.price) * sell.shares`, or nothing when no prior buy
exists. -/
def pairPnl (ts : List ATrade) (s : ATrade) : Option ℚ :=
  (pairBuy ts s).map (fun b => (s.price - b.price) * s.shares)

/-- The `trade_pnl` list accumulated by the pairing loop of
`_calculate_trade_metrics`. -/
def tradePnl (ts : List ATrade) : List ℚ :=
  (sellsOf ts).foldl
    (fun acc s =>
      match pairBuy ts s with
      | some b => acc ++ [(s.price - b.price) * s.shares]
      | none => acc)
    []

/-- The trade-metrics block of the result dict. -/
structure TradeMetrics where
  totalTrades : ℕ
  winCount : ℕ
  lossCount : ℕ
  winRatePct : ℚ
  avgWin : ℚ
  avgLoss : ℚ
  profitFactor : Option ℚ
  largestWin : ℚ
  largestLoss : ℚ
deriving DecidableEq, Repr

/-- `PerformanceAnalyzer._calculate_trade_metrics`: all-zero defaults for
an empty trades table; when pairing yields no P&L entries, zeros except
`total_trades = len(buy_trades)`; otherwise the win/loss statistics over
the paired P&L list (`none` in `profitFactor` models `float('inf')`). -/
def calcTradeMetrics (ts : List ATrade) : TradeMetrics :=
  if ts.isEmpty then
    { totalTrades := 0, winCount := 0, lossCount := 0, winRatePct := 0,
      avgWin := 0, avgLoss := 0, profitFactor := some 0,
      largestWin := 0, largestLoss := 0 }
  else
    let pnl := tradePnl ts
    if pnl.isEmpty then
      { totalTrades := (buysOf ts).length, winCount := 0, lossCount := 0,
        winRatePct := 0, avgWin := 0, avgLoss := 0, profitFactor := some 0,
        largestWin := 0, largestLoss := 0 }
    else
      let wins := pnl.filter (fun x => 0 < x)
      let losses := pnl.filter (fun x => x < 0)
      { totalTrades := pnl.length
        winCount := wins.length
        lossCount := losses.length
        winRatePct :=
          if 0 < pnl.length then ((wins.length : ℚ) / (pnl.length : ℚ)) * 100
          else 0
        avgWin := if 0 < wins.length then listMean wins else 0
        avgLoss := if 0 < losses.length then |listMean losses| else 0
        profitFactor :=
          if 0 < losses.length ∧ losses.sum ≠ 0 then
            some |wins.sum / losses.sum|
          else none
        largestWin := (wins.max?).getD 0
        largestLoss := |(losses.min?).getD 0| }

/-- Helper for the expanding maximum: running maximum continuing from `m`. -/
def runningMaxAux (m : ℚ) : List ℚ → List ℚ
  | [] => []
  | x :: xs => max m x :: runningMaxAux (max m x) xs

/-- `Series.expanding().max()`: the running peak of the total values. -/
def runningMax : List ℚ → List ℚ
  | [] => []
  | x :: xs => x :: runningMaxAux x xs

/-- The per-period drawdown series `(value - peak) / peak * 100`. -/
def drawdowns (l : List ℚ) : List ℚ :=
  l.zipWith (fun v p => (v - p) / p * 100) (runningMax l)

/-- `max_drawdown = abs(drawdown.min())`. -/
def maxDrawdownOf (snaps : List ℚ) : ℚ := |((drawdowns snaps).min?).getD 0|

/-- `current_drawdown = abs(drawdown.iloc[-1])`. -/
def currentDrawdownOf (snaps : List ℚ) : ℚ := |(drawdowns snaps).getLastD 0|

/-- `avg_drawdown = abs(mean of strictly negative drawdowns, 0 if none)`. -/
def avgDrawdownOf (snaps : List ℚ) : ℚ :=
  let negs := (drawdowns snaps).filter (fun x => x < 0)
  |if 0 < negs.length then listMean negs else 0|

/-- `PerformanceAnalyzer.analyze_performance`: `none` models the
`ValueError` on an empty portfolio history; otherwise the basic, risk,
trade and drawdown metric sets are computed from the stored history, with
the risk set reading the annualized return out of the *previous* metrics
dict `prev` (`self.metrics` is only assigned after
`_calculate_risk_metrics` has run). -/
noncomputable def analyzePerformance (snaps : List ℚ) (ts : List ATrade)
    (rf : ℚ) (prev : Option MetricsResult) : Option MetricsResult :=
  if snaps.isEmpty then none
  else
    let prevAnn : ℝ :=
      match prev with
      | some m => m.annualizedReturn
      | none => 0
    let tm := calcTradeMetrics ts
    some
      { initialCapital := snaps.headI
        finalValue := snaps.getLastD 0
        totalReturnPct := totalReturnOf snaps
        annualizedReturn := annualizedReturnOf snaps
        totalDays := snaps.length
        avgDailyReturn := listMean (pctChange snaps) * 100
        dailyVol := sampleStd (pctChange snaps) * 100
        annualizedVol := annualizedVolOf snaps
        sharpe := sharpeOf snaps rf prevAnn
        sortino := sortinoOf snaps rf prevAnn
        totalTrades := tm.totalTrades
        winCount := tm.winCount
        lossCount := tm.lossCount
        winRatePct := tm.winRatePct
        avgWin := tm.avgWin
        avgLoss := tm.avgLoss
        profitFactor := tm.profitFactor
        largestWin := tm.largestWin
        largestLoss := tm.largestLoss
        maxDrawdown := maxDrawdownOf snaps
        currentDrawdown := currentDrawdownOf snaps
        avgDrawdown := avgDrawdownOf snaps }

/-!
### Engine invariants
-/

/-- The sequence of trade sides in a trade list. -/
def tradeTypes (l : List TradeRec) : List TType := l.map (fun t => t.ttype)

/-- The other trade side. -/
def flipT : TType → TType
  | .buy => .sell
  | .sell => .buy

/-- `altOk e l` holds when `l` is exactly `e, flipT e, e, …`. -/
def altOk : TType → List TType → Bool
  | _, [] => true
  | e, t :: ts => decide (t = e) && altOk (flipT e) ts

/-- The side a strictly alternating list starting as `e` expects after the
elements of `l`. -/
def parityExpect (e : TType) (l : List TType) : TType :=
  if l.length % 2 = 0 then e else flipT e

/-- A trade-side sequence strictly alternates Buy, Sell, Buy, Sell, …
starting with Buy. -/
def strictAlternation (l : List TType) : Bool := altOk TType.buy l

/-- Conservation on one snapshot record:
`totalValue = cash + sharesHeld * price` and
`holdingsValue = sharesHeld * price`. -/
def snapOkB (r : SnapRec) : Bool :=
  decide (r.totalValue = r.cash + r.sharesHeld * r.price) &&
  decide (r.holdingsValue = r.sharesHeld * r.price)

theorem flipT_flipT (e : TType) : flipT (flipT e) = e := by
  cases e <;> rfl

theorem parityExpect_cons (e x : TType) (xs : List TType) :
    parityExpect e (x :: xs) = parityExpect (flipT e) xs := by
  by_cases h : xs.length % 2 = 0
  · have h2 : (xs.length + 1) % 2 ≠ 0 := by omega
    simp [parityExpect, h, h2]
  · have h2 : (xs.length + 1) % 2 = 0 := by omega
    simp [parityExpect, h, h2, flipT_flipT]

theorem altOk_append (l : List TType) : ∀ (e t : TType),
    altOk e (l ++ [t]) = (altOk e l && decide (t = parityExpect e l)) := by
  induction l with
  | nil => intro e t; simp [altOk, parityExpect]
  | cons x xs ih =>
    intro e t
    simp only [List.cons_append, altOk, List.append_eq]
    rw [ih (flipT e) t, parityExpect_cons, Bool.and_assoc]

theorem altOk_head (e t : TType) (ts : List TType)
    (h : altOk e (t :: ts) = true) : t = e := by
  simp only [altOk, Bool.and_eq_true, decide_eq_true_eq] at h
  exact h.1

theorem altOk_ne_chain (l : List TType) : ∀ e, altOk e l = true →
    List.Chain' (fun a b => a ≠ b) l := by
  induction l with
  | nil => intro e _; exact List.chain'_nil
  | cons t ts ih =>
    intro e h
    simp only [altOk, Bool.and_eq_true, decide_eq_true_eq] at h
    obtain ⟨ht, hrest⟩ := h
    cases ts with
    | nil => simp
    | cons t2 ts2 =>
      rw [List.chain'_cons]
      refine ⟨?_, ih (flipT e) hrest⟩
      have h2 : t2 = flipT e := altOk_head _ _ _ hrest
      subst ht h2
      cases t <;> simp [flipT]

/-- The run invariant: the trade store strictly alternates starting with
BUY; an open position forces an odd trade count (last record a BUY); a
trailing BUY without an open position can only happen with non-positive
cash; the `trades_executed` counter mirrors the store; and every emitted
snapshot satisfies conservation. -/
def EInv (s : EngineState) : Prop :=
  strictAlternation (tradeTypes s.trades) = true ∧
  (0 < s.positionShares → s.trades.length % 2 = 1) ∧
  (s.trades.length % 2 = 1 → 0 < s.positionShares ∨ s.cash ≤ 0) ∧
  s.trades.length = s.tradesExecuted ∧
  s.snapshots.all snapOkB = true

theorem einv_updateStatus (s : EngineState) (d : ℕ) (p : ℚ) (h : EInv s) :
    EInv (updateStatus s d p) := by
  obtain ⟨h1, h2, h3, h4, h5⟩ := h
  refine ⟨h1, h2, h3, h4, ?_⟩
  simp [updateStatus, List.all_append, h5, snapOkB]

theorem einv_executeSell (s : EngineState) (d : ℕ) (p : ℚ) (h : EInv s) :
    EInv (executeSell s d p) := by
  obtain ⟨h1, h2, h3, h4, h5⟩ := h
  unfold executeSell
  split
  · exact ⟨h1, h2, h3, h4, h5⟩
  · rename_i hpos
    have hodd : s.trades.length % 2 = 1 := h2 (lt_of_not_le hpos)
    refine ⟨?_, ?_, ?_, ?_, h5⟩
    · show strictAlternation (tradeTypes (s.trades ++ [_])) = true
      unfold strictAlternation tradeTypes at h1 ⊢
      rw [List.map_append, List.map_cons, List.map_nil, altOk_append, h1]
      have hpe : parityExpect TType.buy (s.trades.map (fun t => t.ttype)) =
          TType.sell := by
        unfold parityExpect
        rw [List.length_map, if_neg (by omega)]
        rfl
      rw [hpe]
      simp
    · intro hc
      simp at hc
    · intro hc
      simp only [List.length_append, List.length_cons, List.length_nil] at hc
      omega
    · simp [List.length_append, h4]

theorem einv_checkExit (pol : Option ExitPolicy) (s : EngineState)
    (row : SignalRow) (p : ℚ) (h : EInv s) : EInv (checkExit pol s row p) := by
  cases pol with
  | some f =>
    cases hf : f p s.entryPrice row with
    | true =>
      have he : checkExit (some f) s row p = executeSell s row.date p := by
        simp [checkExit, hf]
      rw [he]
      exact einv_executeSell _ _ _ h
    | false =>
      have he : checkExit (some f) s row p = s := by
        simp [checkExit, hf]
      rw [he]
      exact h
  | none =>
    cases hf : defaultExit p s.entryPrice row with
    | true =>
      have he : checkExit none s row p = executeSell s row.date p := by
        simp [checkExit, hf]
      rw [he]
      exact einv_executeSell _ _ _ h
    | false =>
      have he : checkExit none s row p = s := by
        simp [checkExit, hf]
      rw [he]
      exact h

theorem einv_executeBuy (s : EngineState) (d : ℕ) (p : ℚ) (s1 : EngineState)
    (hpos : ¬ 0 < s.positionShares) (h : EInv s)
    (hb : executeBuy s d p = Except.ok s1) : EInv s1 := by
  obtain ⟨h1, h2, h3, h4, h5⟩ := h
  unfold executeBuy at hb
  split at hb
  · cases hb
    exact ⟨h1, h2, h3, h4, h5⟩
  · rename_i hcash
    split at hb
    · exact absurd hb (by simp)
    · cases hb
      have heven : s.trades.length % 2 = 0 := by
        by_contra hne
        have hodd : s.trades.length % 2 = 1 :=
          (Nat.mod_two_eq_zero_or_one _).resolve_left hne
        rcases h3 hodd with hl | hr
        · exact hpos hl
        · exact hcash hr
      refine ⟨?_, ?_, ?_, ?_, h5⟩
      · show strictAlternation (tradeTypes (s.trades ++ [_])) = true
        unfold strictAlternation tradeTypes at h1 ⊢
        rw [List.map_append, List.map_cons, List.map_nil, altOk_append, h1]
        have hpe : parityExpect TType.buy (s.trades.map (fun t => t.ttype)) =
            TType.buy := by
          unfold parityExpect
          rw [List.length_map, if_pos heven]
        rw [hpe]
        simp
      · intro _
        simp only [List.length_append, List.length_cons, List.length_nil]
        omega
      · intro _
        right
        exact le_refl 0
      · simp [List.length_append, h4]

theorem einv_engineStep (pol : Option ExitPolicy) (s : EngineState)
    (row : SignalRow) (s1 : EngineState) (h : EInv s)
    (hs : engineStep pol s row = Except.ok s1) : EInv s1 := by
  unfold engineStep at hs
  cases hrow : row.price with
  | none =>
    simp only [hrow] at hs
    cases hs
    exact h
  | some p =>
    simp only [hrow] at hs
    by_cases hpos : 0 < s.positionShares
    · rw [if_pos hpos] at hs
      cases hs
      exact einv_updateStatus _ _ _ (einv_checkExit _ _ _ _ h)
    · rw [if_neg hpos] at hs
      by_cases hsig : row.signal = some 1
      · rw [if_pos hsig] at hs
        cases hb : executeBuy s row.date p with
        | ok sb =>
          rw [hb] at hs
          cases hs
          exact einv_updateStatus _ _ _ (einv_executeBuy _ _ _ _ hpos h hb)
        | error e =>
          rw [hb] at hs
          exact absurd hs (by simp)
      · rw [if_neg hsig] at hs
        cases hs
        exact einv_updateStatus _ _ _ h

theorem einv_runLoop (pol : Option ExitPolicy) (rows : List SignalRow) :
    ∀ s : EngineState, EInv s → EInv (runLoop pol s rows).2 := by
  induction rows with
  | nil => intro s h; exact h
  | cons r rs ih =>
    intro s h
    rw [runLoop]
    cases hst : engineStep pol s r with
    | ok s1 => exact ih s1 (einv_engineStep pol s r s1 h hst)
    | error e => exact h

theorem einv_clearAndReset (s0 : EngineState) : EInv (clearAndReset s0) := by
  refine ⟨rfl, ?_, ?_, rfl, rfl⟩
  · intro hc
    exact absurd hc (by simp [clearAndReset])
  · intro hc
    simp [clearAndReset] at hc

theorem finishRun_snd (pr : Option RunError × EngineState) :
    (finishRun pr).2 = pr.2 := by
  unfold finishRun
  split
  · split <;> rfl
  · rfl

theorem einv_runBacktest (s0 : EngineState) (pol : Option ExitPolicy)
    (df : SignalFrame) : EInv (runBacktest s0 pol df).2 := by
  simp only [runBacktest]
  split
  · rw [finishRun_snd]
    exact einv_runLoop pol (df.rows.drop 1) (clearAndReset s0)
      (einv_clearAndReset s0)
  · exact einv_clearAndReset s0

theorem finishRun_fst_ok (pr : Option RunError × EngineState)
    (sum : RunSummary) (h : (finishRun pr).1 = Except.ok sum) :
    pr.1 = none ∧ generateSummary pr.2 = Except.ok sum := by
  unfold finishRun at h
  split at h
  · rename_i s2
    split at h
    · rename_i sum2 hg
      cases h
      exact ⟨rfl, hg⟩
    · exact absurd h (by simp)
  · exact absurd h (by simp)

theorem finishRun_fst_error (pr : Option RunError × EngineState)
    (e : RunError) (h : (finishRun pr).1 = Except.error e) :
    pr.1 = some e ∨ generateSummary pr.2 = Except.error e := by
  unfold finishRun at h
  split at h
  · rename_i s2
    split at h
    · exact absurd h (by simp)
    · rename_i e2 hg
      cases h
      exact Or.inr hg
  · rename_i e2 s2
    cases h
    exact Or.inl rfl

theorem executeBuy_error (s : EngineState) (d : ℕ) (p : ℚ) (e : RunError)
    (h : executeBuy s d p = Except.error e) : e = RunError.zeroDivision := by
  unfold executeBuy at h
  split at h
  · exact absurd h (by simp)
  · split at h
    · cases h
      rfl
    · exact absurd h (by simp)

theorem engineStep_error (pol : Option ExitPolicy) (s : EngineState)
    (row : SignalRow) (e : RunError)
    (h : engineStep pol s row = Except.error e) : e = RunError.zeroDivision := by
  unfold engineStep at h
  cases hrow : row.price with
  | none =>
    simp only [hrow] at h
    exact absurd h (by simp)
  | some p =>
    simp only [hrow] at h
    by_cases hpos : 0 < s.positionShares
    · rw [if_pos hpos] at h
      exact absurd h (by simp)
    · rw [if_neg hpos] at h
      by_cases hsig : row.signal = some 1
      · rw [if_pos hsig] at h
        cases hb : executeBuy s row.date p with
        | ok sb =>
          rw [hb] at h
          exact absurd h (by simp)
        | error e2 =>
          rw [hb] at h
          cases h
          exact executeBuy_error _ _ _ _ hb
      · rw [if_neg hsig] at h
        exact absurd h (by simp)

theorem runLoop_error (pol : Option ExitPolicy) (rows : List SignalRow) :
    ∀ (s : EngineState) (e : RunError), (runLoop pol s rows).1 = some e →
    e = RunError.zeroDivision := by
  induction rows with
  | nil =>
    intro s e h
    simp [runLoop] at h
  | cons r rs ih =>
    intro s e h
    rw [runLoop] at h
    cases hst : engineStep pol s r with
    | ok s1 =>
      rw [hst] at h
      exact ih s1 e h
    | error e2 =>
      rw [hst] at h
      cases h
      exact engineStep_error _ _ _ _ hst

theorem generateSummary_error (s : EngineState) (e : RunError)
    (h : generateSummary s = Except.error e) : e = RunError.zeroDivision := by
  unfold generateSummary at h
  split at h
  · cases h
    rfl
  · exact absurd h (by simp)

theorem executeSell_snapshots (s : EngineState) (d : ℕ) (p : ℚ) :
    (executeSell s d p).snapshots = s.snapshots := by
  unfold executeSell
  split <;> rfl

theorem checkExit_snapshots (pol : Option ExitPolicy) (s : EngineState)
    (row : SignalRow) (p : ℚ) :
    (checkExit pol s row p).snapshots = s.snapshots := by
  unfold checkExit
  cases pol with
  | some f =>
    cases hf : f p s.entryPrice row with
    | true => simp [hf, executeSell_snapshots]
    | false => simp [hf]
  | none =>
    cases hf : defaultExit p s.entryPrice row with
    | true => simp [hf, executeSell_snapshots]
    | false => simp [hf]

theorem executeBuy_ok_snapshots (s : EngineState) (d : ℕ) (p : ℚ)
    (s1 : EngineState) (h : executeBuy s d p = Except.ok s1) :
    s1.snapshots = s.snapshots := by
  unfold executeBuy at h
  split at h
  · cases h
    rfl
  · split at h
    · exact absurd h (by simp)
    · cases h
      rfl

theorem updateStatus_snapshots (s : EngineState) (d : ℕ) (p : ℚ) :
    (updateStatus s d p).snapshots = s.snapshots ++
      [{ date := d, cash := s.cash, holdingsValue := s.positionShares * p,
         totalValue := s.cash + s.positionShares * p,
         sharesHeld := s.positionShares, price := p }] := rfl

/-!
### Claims C6, C7, C8
-/

/-- C6: over any run of the simulation engine, the emitted TradeRecord
sequence strictly alternates Buy, Sell, Buy, … starting with Buy; in
particular no two consecutive records share a type and a Sell never
appears first. -/
theorem c6_trade_alternation (s0 : EngineState) (pol : Option ExitPolicy)
    (df : SignalFrame) :
    strictAlternation (tradeTypes (runBacktest s0 pol df).2.trades) = true ∧
    List.Chain' (fun a b => a ≠ b)
      (tradeTypes (runBacktest s0 pol df).2.trades) ∧
    (tradeTypes (runBacktest s0 pol df).2.trades).head? ≠ some TType.sell := by
  have h := (einv_runBacktest s0 pol df).1
  refine ⟨h, altOk_ne_chain _ _ h, ?_⟩
  cases hl : tradeTypes (runBacktest s0 pol df).2.trades with
  | nil => simp
  | cons t ts =>
    rw [hl] at h
    have ht : t = TType.buy := altOk_head _ _ _ h
    subst ht
    simp

/-- C7: every snapshot record emitted during any run satisfies
`totalValue = cash + sharesHeld * price` exactly (equivalently
`totalValue = cash + holdingsValue` with `holdingsValue =
sharesHeld * price`). -/
theorem c7_snapshot_conservation (s0 : EngineState) (pol : Option ExitPolicy)
    (df : SignalFrame) (r : SnapRec)
    (hr : r ∈ (runBacktest s0 pol df).2.snapshots) :
    r.totalValue = r.cash + r.sharesHeld * r.price ∧
    r.holdingsValue = r.sharesHeld * r.price := by
  have h := (einv_runBacktest s0 pol df).2.2.2.2
  rw [List.all_eq_true] at h
  have hb := h r hr
  simp only [snapOkB, Bool.and_eq_true, decide_eq_true_eq] at hb
  exact hb

/-- A concrete two-row frame: the first row is skipped, the second row is
a plain no-trade period. -/
def dfW7 : SignalFrame :=
  ⟨true, true, [⟨0, some 3, none, none⟩, ⟨1, some 5, none, none⟩]⟩

/-- The single snapshot the run over `dfW7` emits. -/
def snapW7 : SnapRec := ⟨1, 100, 0, 100, 0, 5⟩

theorem c7_snapshot_conservation_witness :
    snapW7 ∈ (runBacktest (initEngine 100) none dfW7).2.snapshots ∧
    (snapW7.totalValue = snapW7.cash + snapW7.sharesHeld * snapW7.price ∧
     snapW7.holdingsValue = snapW7.sharesHeld * snapW7.price) :=
  ⟨by simp [runBacktest, clearAndReset, initEngine, dfW7, finishRun_snd,
      runLoop, engineStep, updateStatus, snapW7],
   c7_snapshot_conservation (initEngine 100) none dfW7 snapW7
     (by simp [runBacktest, clearAndReset, initEngine, dfW7, finishRun_snd,
        runLoop, engineStep, updateStatus, snapW7])⟩

/-- C8: a period whose price is NaN is skipped entirely (the engine state
— portfolio, counters and both stores — is exactly unchanged); a period
with a present price that completes appends exactly one snapshot record;
and the first record of the series is skipped (the run result does not
depend on it at all). -/
theorem c8_skip_semantics (pol : Option ExitPolicy) (s : EngineState)
    (row : SignalRow) :
    (row.price = none → engineStep pol s row = Except.ok s) ∧
    (∀ (p : ℚ) (s1 : EngineState), row.price = some p →
      engineStep pol s row = Except.ok s1 →
      ∃ sn : SnapRec, s1.snapshots = s.snapshots ++ [sn]) ∧
    (∀ (s0 : EngineState) (colP colS : Bool) (r rTwo : SignalRow)
      (rest : List SignalRow),
      runBacktest s0 pol ⟨colP, colS, r :: rest⟩ =
      runBacktest s0 pol ⟨colP, colS, rTwo :: rest⟩) := by
  refine ⟨?_, ?_, ?_⟩
  · intro hp
    unfold engineStep
    rw [hp]
  · intro p s1 hp hs
    unfold engineStep at hs
    simp only [hp] at hs
    by_cases hpos : 0 < s.positionShares
    · rw [if_pos hpos] at hs
      cases hs
      simp only [updateStatus_snapshots, checkExit_snapshots]
      exact ⟨_, rfl⟩
    · rw [if_neg hpos] at hs
      by_cases hsig : row.signal = some 1
      · rw [if_pos hsig] at hs
        cases hb : executeBuy s row.date p with
        | ok sb =>
          rw [hb] at hs
          cases hs
          simp only [updateStatus_snapshots,
            executeBuy_ok_snapshots s row.date p sb hb]
          exact ⟨_, rfl⟩
        | error e =>
          rw [hb] at hs
          exact absurd hs (by simp)
      · rw [if_neg hsig] at hs
        cases hs
        simp only [updateStatus_snapshots]
        exact ⟨_, rfl⟩
  · intro s0 colP colS r rTwo rest
    rfl

/-- A NaN-price row for the C8 witness. -/
def rowNaN8 : SignalRow := ⟨1, none, none, none⟩

/-- A present-price no-trade row for the C8 witness. -/
def rowP8 : SignalRow := ⟨2, some 2, none, none⟩

/-- The state after processing `rowP8` from `initEngine 5`. -/
def sOne8 : EngineState := { initEngine 5 with snapshots := [⟨2, 5, 0, 5, 0, 2⟩] }

theorem c8_skip_semantics_witness :
    engineStep none (initEngine 5) rowNaN8 = Except.ok (initEngine 5) ∧
    (∃ sn : SnapRec, sOne8.snapshots = (initEngine 5).snapshots ++ [sn]) ∧
    runBacktest (initEngine 5) none ⟨true, true, [rowNaN8, rowP8]⟩ =
      runBacktest (initEngine 5) none ⟨true, true, [rowP8, rowP8]⟩ :=
  ⟨(c8_skip_semantics none (initEngine 5) rowNaN8).1 rfl,
   (c8_skip_semantics none (initEngine 5) rowP8).2.1 2 sOne8 rfl
     (by simp [engineStep, rowP8, initEngine, updateStatus, sOne8]),
   (c8_skip_semantics none (initEngine 5) rowNaN8).2.2 (initEngine 5) true true
     rowNaN8 rowP8 [rowP8]⟩

/-!
### Claims C9, C10, C3
-/

theorem runBacktest_eq_of_cols (s0 : EngineState) (pol : Option ExitPolicy)
    (df : SignalFrame) (hc : (df.hasPriceCol && df.hasSignalCol) = true) :
    runBacktest s0 pol df =
      finishRun (runLoop pol (clearAndReset s0) (df.rows.drop 1)) := by
  unfold runBacktest
  rw [if_pos hc]

theorem runBacktest_eq_of_not_cols (s0 : EngineState) (pol : Option ExitPolicy)
    (df : SignalFrame) (hc : ¬ (df.hasPriceCol && df.hasSignalCol) = true) :
    runBacktest s0 pol df = (.error .missingColumns, clearAndReset s0) := by
  unfold runBacktest
  rw [if_neg hc]

theorem runBacktest_ok_summary (s0 : EngineState) (pol : Option ExitPolicy)
    (df : SignalFrame) (sum : RunSummary)
    (h : (runBacktest s0 pol df).1 = Except.ok sum) :
    generateSummary (runBacktest s0 pol df).2 = Except.ok sum := by
  by_cases hc : (df.hasPriceCol && df.hasSignalCol) = true
  · rw [runBacktest_eq_of_cols s0 pol df hc] at h ⊢
    rw [finishRun_snd]
    exact (finishRun_fst_ok _ sum h).2
  · rw [runBacktest_eq_of_not_cols s0 pol df hc] at h
    exact absurd h (by simp)

/-- The three-row frame driving one Buy and one winning Sell. -/
def dfC9 : SignalFrame :=
  ⟨true, true,
   [⟨0, some 5, none, none⟩, ⟨1, some 10, none, some 1⟩,
    ⟨2, some 20, some 15, none⟩]⟩

/-- The summary of the `dfC9` run: one winning round trip logged as two
trade records, hence win rate 50. -/
def sumC9 : RunSummary := ⟨1000, 2000, 100, 2, 1, 0, 50, 1000⟩

/-- C9: the RunSummary win rate equals `winning_trades` divided by the
total count of executed trade records (each Buy and each Sell counted
separately in the denominator), and 0 when no trade executed; hence the
concrete run with exactly one completed winning round trip reports a win
rate of 50, not 100. -/
theorem c9_win_rate_counts_both_sides :
    (∀ (s0 : EngineState) (pol : Option ExitPolicy) (df : SignalFrame)
      (sum : RunSummary), (runBacktest s0 pol df).1 = Except.ok sum →
      sum.winRatePct =
        if (runBacktest s0 pol df).2.trades.length = 0 then 0
        else ((runBacktest s0 pol df).2.winningTrades : ℚ) /
          ((runBacktest s0 pol df).2.trades.length : ℚ) * 100) ∧
    (runBacktest (initEngine 1000) none dfC9).1 = Except.ok sumC9 := by
  constructor
  · intro s0 pol df sum hok
    have hlen := (einv_runBacktest s0 pol df).2.2.2.1
    have hg := runBacktest_ok_summary s0 pol df sum hok
    unfold generateSummary at hg
    split at hg
    · exact absurd hg (by simp)
    · cases hg
      show (if 0 < (runBacktest s0 pol df).2.tradesExecuted then _ else _) = _
      rw [← hlen]
      by_cases h0 : (runBacktest s0 pol df).2.trades.length = 0
      · rw [h0]
        simp
      · have hpos : 0 < (runBacktest s0 pol df).2.trades.length :=
          Nat.pos_of_ne_zero h0
        rw [if_neg h0, if_pos hpos, Nat.max_eq_left (by omega)]
  · show (runBacktest (initEngine 1000) none dfC9).1 = Except.ok sumC9
    norm_num [runBacktest, clearAndReset, initEngine, dfC9, finishRun,
      runLoop, engineStep, executeBuy, executeSell, checkExit, defaultExit,
      updateStatus, generateSummary, sumC9]

theorem c9_win_rate_counts_both_sides_witness :
    (runBacktest (initEngine 1000) none dfC9).1 = Except.ok sumC9 ∧
    sumC9.winRatePct =
      (if (runBacktest (initEngine 1000) none dfC9).2.trades.length = 0 then 0
       else ((runBacktest (initEngine 1000) none dfC9).2.winningTrades : ℚ) /
         ((runBacktest (initEngine 1000) none dfC9).2.trades.length : ℚ) * 100) :=
  ⟨c9_win_rate_counts_both_sides.2,
   c9_win_rate_counts_both_sides.1 (initEngine 1000) none dfC9 sumC9
     c9_win_rate_counts_both_sides.2⟩

theorem engineStep_flat_nonpos (pol : Option ExitPolicy) (s : EngineState)
    (row : SignalRow) (hc : s.cash ≤ 0) (hp : s.positionShares = 0) :
    ∃ s1, engineStep pol s row = Except.ok s1 ∧ s1.cash = s.cash ∧
      s1.positionShares = 0 ∧ s1.trades = s.trades ∧
      s1.tradesExecuted = s.tradesExecuted ∧
      s1.initialCapital = s.initialCapital ∧
      s1.winningTrades = s.winningTrades ∧
      s1.losingTrades = s.losingTrades := by
  have hpos : ¬ 0 < s.positionShares := by
    rw [hp]
    exact lt_irrefl 0
  cases hrow : row.price with
  | none =>
    have hstep : engineStep pol s row = Except.ok s := by
      unfold engineStep
      simp only [hrow]
    exact ⟨s, hstep, rfl, hp, rfl, rfl, rfl, rfl, rfl⟩
  | some p =>
    by_cases hsig : row.signal = some 1
    · have hb : executeBuy s row.date p = Except.ok s := by
        unfold executeBuy
        rw [if_pos hc]
      have hstep : engineStep pol s row =
          Except.ok (updateStatus s row.date p) := by
        unfold engineStep
        simp only [hrow]
        rw [if_neg hpos, if_pos hsig, hb]
      exact ⟨updateStatus s row.date p, hstep, rfl, hp, rfl, rfl, rfl, rfl, rfl⟩
    · have hstep : engineStep pol s row =
          Except.ok (updateStatus s row.date p) := by
        unfold engineStep
        simp only [hrow]
        rw [if_neg hpos, if_neg hsig]
      exact ⟨updateStatus s row.date p, hstep, rfl, hp, rfl, rfl, rfl, rfl, rfl⟩

theorem runLoop_flat_nonpos (pol : Option ExitPolicy) (rows : List SignalRow) :
    ∀ s : EngineState, s.cash ≤ 0 → s.positionShares = 0 →
    ∃ s2, runLoop pol s rows = (none, s2) ∧ s2.cash = s.cash ∧
      s2.positionShares = 0 ∧ s2.trades = s.trades ∧
      s2.tradesExecuted = s.tradesExecuted ∧
      s2.initialCapital = s.initialCapital ∧
      s2.winningTrades = s.winningTrades ∧
      s2.losingTrades = s.losingTrades := by
  induction rows with
  | nil =>
    intro s hc hp
    exact ⟨s, rfl, rfl, hp, rfl, rfl, rfl, rfl, rfl⟩
  | cons r rs ih =>
    intro s hc hp
    obtain ⟨s1, hstep, e1, e2, e3, e4, e5, e6, e7⟩ :=
      engineStep_flat_nonpos pol s r hc hp
    obtain ⟨s2, hloop, f1, f2, f3, f4, f5, f6, f7⟩ :=
      ih s1 (e1 ▸ hc) e2
    refine ⟨s2, ?_, ?_, f2, ?_, ?_, ?_, ?_, ?_⟩
    · rw [runLoop, hstep]
      exact hloop
    · rw [f1, e1]
    · rw [f3, e3]
    · rw [f4, e4]
    · rw [f5, e5]
    · rw [f6, e6]
    · rw [f7, e7]

theorem generateSummary_isOk (s : EngineState) (h : s.initialCapital ≠ 0) :
    ∃ sum, generateSummary s = Except.ok sum := by
  unfold generateSummary
  rw [if_neg h]
  exact ⟨_, rfl⟩

theorem generateSummary_zero (s : EngineState) (h : s.initialCapital = 0) :
    generateSummary s = Except.error RunError.zeroDivision := by
  unfold generateSummary
  rw [if_pos h]

theorem finishRun_none_ok (s2 : EngineState) (sum : RunSummary)
    (hg : generateSummary s2 = Except.ok sum) :
    finishRun (none, s2) = (Except.ok sum, s2) := by
  simp only [finishRun]
  rw [hg]

theorem finishRun_none_error (s2 : EngineState) (e : RunError)
    (hg : generateSummary s2 = Except.error e) :
    finishRun (none, s2) = (Except.error e, s2) := by
  simp only [finishRun]
  rw [hg]

/-- C10 (amended): a Buy attempted with `cash <= 0` is a complete no-op
(the whole engine state, including the stores, is returned unchanged —
in particular the division `cash / price` is never evaluated there); a
run started with `initialCapital < 0` completes without error and records
zero trades; a run started with `initialCapital = 0` records zero trades
but fails with the division-by-zero error raised while computing the
summary's total return. -/
theorem c10_buy_guard_nonpositive_cash :
    (∀ (s : EngineState) (d : ℕ) (p : ℚ), s.cash ≤ 0 →
      executeBuy s d p = Except.ok s) ∧
    (∀ (s0 : EngineState) (pol : Option ExitPolicy) (df : SignalFrame),
      df.hasPriceCol = true → df.hasSignalCol = true →
      (s0.initialCapital < 0 →
        (∃ sum, (runBacktest s0 pol df).1 = Except.ok sum) ∧
        (runBacktest s0 pol df).2.trades = []) ∧
      (s0.initialCapital = 0 →
        (runBacktest s0 pol df).1 = Except.error RunError.zeroDivision ∧
        (runBacktest s0 pol df).2.trades = [])) := by
  constructor
  · intro s d p h
    unfold executeBuy
    rw [if_pos h]
  · intro s0 pol df hp hs
    have hcols : (df.hasPriceCol && df.hasSignalCol) = true := by
      rw [hp, hs]
      rfl
    have hrun := runBacktest_eq_of_cols s0 pol df hcols
    constructor
    · intro hneg
      obtain ⟨s2, hl, g1, g2, g3, g4, g5, g6, g7⟩ :=
        runLoop_flat_nonpos pol (df.rows.drop 1) (clearAndReset s0)
          (le_of_lt hneg) rfl
      have hcap : s2.initialCapital ≠ 0 := by
        rw [g5]
        exact ne_of_lt hneg
      obtain ⟨sum, hgs⟩ := generateSummary_isOk s2 hcap
      have : runBacktest s0 pol df = (Except.ok sum, s2) := by
        rw [hrun, hl, finishRun_none_ok s2 sum hgs]
      rw [this]
      exact ⟨⟨sum, rfl⟩, g3⟩
    · intro hzero
      obtain ⟨s2, hl, g1, g2, g3, g4, g5, g6, g7⟩ :=
        runLoop_flat_nonpos pol (df.rows.drop 1) (clearAndReset s0)
          (le_of_eq hzero) rfl
      have hcap : s2.initialCapital = 0 := by
        rw [g5]
        exact hzero
      have : runBacktest s0 pol df = (Except.error RunError.zeroDivision, s2) := by
        rw [hrun, hl, finishRun_none_error s2 _ (generateSummary_zero s2 hcap)]
      rw [this]
      exact ⟨rfl, g3⟩

/-- A two-row frame with plain prices and no signals, for the C10
artifacts. -/
def dfW10 : SignalFrame :=
  ⟨true, true, [⟨0, some 3, none, none⟩, ⟨1, some 4, none, none⟩]⟩

theorem c10_buy_guard_nonpositive_cash_witness :
    executeBuy (initEngine (-3)) 1 5 = Except.ok (initEngine (-3)) ∧
    ((∃ sum, (runBacktest (initEngine (-5)) none dfW10).1 = Except.ok sum) ∧
     (runBacktest (initEngine (-5)) none dfW10).2.trades = []) :=
  ⟨c10_buy_guard_nonpositive_cash.1 (initEngine (-3)) 1 5
     (by norm_num [initEngine]),
   (c10_buy_guard_nonpositive_cash.2 (initEngine (-5)) none dfW10 rfl rfl).1
     (by norm_num [initEngine])⟩

/-- C10 counterexample: a run started with `initialCapital = 0` (which is
`<= 0`) does not complete without error — it raises the division-by-zero
error from the summary's total-return computation. -/
theorem c10_zero_capital_raises :
    (0 : ℚ) ≤ 0 ∧
    (runBacktest (initEngine 0) none dfW10).1 =
      Except.error RunError.zeroDivision :=
  ⟨le_refl 0,
   by simp [runBacktest, clearAndReset, initEngine, dfW10, finishRun,
     runLoop, engineStep, updateStatus, generateSummary]⟩

/-- C3 (amended): the run raises the missing-columns error exactly when
the frame lacks a `price` or `signal` column — a series that is merely
empty after removing rows with missing prices does not raise — and the
store clearing and portfolio reset happen before the validation, so a
raising run leaves behind the cleared/reset state (it does mutate
state). -/
theorem c3_missing_columns_validation (s0 : EngineState)
    (pol : Option ExitPolicy) (df : SignalFrame) :
    ((runBacktest s0 pol df).1 = Except.error RunError.missingColumns ↔
      ¬(df.hasPriceCol = true ∧ df.hasSignalCol = true)) ∧
    (¬(df.hasPriceCol = true ∧ df.hasSignalCol = true) →
      (runBacktest s0 pol df).2 = clearAndReset s0) := by
  by_cases hc : (df.hasPriceCol && df.hasSignalCol) = true
  · have hpq : df.hasPriceCol = true ∧ df.hasSignalCol = true := by
      simpa [Bool.and_eq_true] using hc
    constructor
    · constructor
      · intro herr
        exfalso
        rw [runBacktest_eq_of_cols s0 pol df hc] at herr
        rcases finishRun_fst_error _ _ herr with h | h
        · have hz := runLoop_error pol (df.rows.drop 1) (clearAndReset s0)
            RunError.missingColumns h
          simp at hz
        · have hz := generateSummary_error _ RunError.missingColumns h
          simp at hz
      · intro hn
        exact absurd hpq hn
    · intro hn
      exact absurd hpq hn
  · have hn : ¬(df.hasPriceCol = true ∧ df.hasSignalCol = true) := by
      simpa [Bool.and_eq_true] using hc
    rw [runBacktest_eq_of_not_cols s0 pol df hc]
    exact ⟨⟨fun _ => hn, fun _ => rfl⟩, fun _ => rfl⟩

/-- A prior engine state holding one trade record and some cash, to show
the raising run wipes it. -/
def s0W3 : EngineState :=
  { initEngine 50 with trades := [⟨0, TType.buy, 2, 3, -6, 6⟩], cash := 7 }

/-- A frame with a `price` column but no `signal` column. -/
def dfW3 : SignalFrame := ⟨true, false, [⟨0, some 1, none, none⟩]⟩

theorem c3_missing_columns_validation_witness :
    ¬(dfW3.hasPriceCol = true ∧ dfW3.hasSignalCol = true) ∧
    (runBacktest s0W3 none dfW3).2 = clearAndReset s0W3 :=
  ⟨by simp [dfW3],
   (c3_missing_columns_validation s0W3 none dfW3).2 (by simp [dfW3])⟩

/-- A frame with both columns whose every row has a missing price: the
series is empty after removing rows with missing prices. -/
def dfNaN3 : SignalFrame :=
  ⟨true, true, [⟨0, none, none, none⟩, ⟨1, none, none, none⟩]⟩

/-- The summary such a run returns: nothing happened. -/
def sumNaN3 : RunSummary := ⟨100, 100, 0, 0, 0, 0, 0, 0⟩

/-- C3 counterexample: (i) on a series that is empty after removing
missing-price rows the run returns a summary instead of raising; (ii) a
run that does raise the missing-columns error has already cleared the
trade store and reset the portfolio, so state was mutated before the
raise. -/
theorem c3_raise_without_mutation_fails :
    (runBacktest (initEngine 100) none dfNaN3).1 = Except.ok sumNaN3 ∧
    (runBacktest s0W3 none dfW3).1 = Except.error RunError.missingColumns ∧
    (runBacktest s0W3 none dfW3).2 ≠ s0W3 := by
  refine ⟨?_, ?_, ?_⟩
  · norm_num [runBacktest, clearAndReset, initEngine, dfNaN3, finishRun,
      runLoop, engineStep, generateSummary, sumNaN3]
  · simp [runBacktest, dfW3]
  · simp [runBacktest, dfW3, clearAndReset, s0W3, initEngine]

/-!
### Claim C4 — trade pairing
-/

/-- The stored trade list is ordered by `trade_date`, as
`DatabaseManager.get_trades` (`ORDER BY trade_date`) returns it. -/
def sortedByDate (ts : List ATrade) : Prop :=
  ts.Pairwise (fun a b => a.date ≤ b.date)

theorem mem_of_getLast?_eq {α : Type _} (l : List α) (x : α)
    (h : l.getLast? = some x) : x ∈ l := by
  induction l with
  | nil => simp at h
  | cons a t ih =>
    cases t with
    | nil =>
      simp at h
      simp [h]
    | cons b t2 =>
      rw [List.getLast?_cons_cons] at h
      exact List.mem_cons_of_mem a (ih h)

theorem pairwise_date_getLast (l : List ATrade) :
    l.Pairwise (fun a b => a.date ≤ b.date) →
    ∀ x ∈ l, ∀ y, l.getLast? = some y → x.date ≤ y.date := by
  induction l with
  | nil =>
    intro _ x hx
    simp at hx
  | cons a t ih =>
    intro hp x hx y hy
    rw [List.pairwise_cons] at hp
    cases t with
    | nil =>
      simp at hx hy
      rw [hx, ← hy]
    | cons b t2 =>
      rw [List.getLast?_cons_cons] at hy
      rcases List.mem_cons.mp hx with rfl | hx2
      · exact hp.1 y (mem_of_getLast?_eq _ _ hy)
      · exact ih hp.2 x hx2 y hy

/-- The pairing behaviour of `_calculate_trade_metrics` on a date-sorted
trade list: every Sell pairs with the most recent Buy strictly preceding
it in time — in particular never an older Buy when a more recent
qualifying one exists — with per-pair P&L
`(sellPrice - buyPrice) * sellShares`; a Sell with no strictly preceding
Buy produces no pair; and the accumulated P&L list is exactly the
per-sell pairing outcomes, in sell order. -/
def PairingSpec (ts : List ATrade) : Prop :=
  (∀ s ∈ sellsOf ts,
    (∀ b, pairBuy ts s = some b →
      b ∈ buysOf ts ∧ b.date < s.date ∧
      (∀ bb ∈ buysOf ts, bb.date < s.date → bb.date ≤ b.date) ∧
      pairPnl ts s = some ((s.price - b.price) * s.shares)) ∧
    (pairBuy ts s = none →
      pairPnl ts s = none ∧ ∀ bb ∈ buysOf ts, ¬ bb.date < s.date)) ∧
  tradePnl ts = (sellsOf ts).filterMap (pairPnl ts)

theorem tradePnl_foldl (ts : List ATrade) (l : List ATrade) :
    ∀ acc : List ℚ,
    l.foldl
      (fun acc2 s =>
        match pairBuy ts s with
        | some b => acc2 ++ [(s.price - b.price) * s.shares]
        | none => acc2) acc = acc ++ l.filterMap (pairPnl ts) := by
  induction l with
  | nil =>
    intro acc
    simp
  | cons x xs ih =>
    intro acc
    rw [List.foldl_cons, List.filterMap_cons]
    cases hx : pairBuy ts x with
    | some b =>
      simp only [hx]
      rw [ih]
      have hpx : pairPnl ts x = some ((x.price - b.price) * x.shares) := by
        unfold pairPnl
        rw [hx]
        rfl
      rw [hpx, List.append_assoc]
      rfl
    | none =>
      simp only [hx]
      rw [ih]
      have hpx : pairPnl ts x = none := by
        unfold pairPnl
        rw [hx]
        rfl
      rw [hpx]

/-- C4: on every date-sorted stored trade list, the trade-metrics pairing
matches each Sell with the most recent Buy that strictly precedes it —
never an older one — with P&L `(sellPrice - buyPrice) * sellShares`, and
a Sell with no preceding Buy contributes no pair. -/
theorem c4_sell_pairs_most_recent_buy (ts : List ATrade)
    (hs : sortedByDate ts) : PairingSpec ts := by
  constructor
  · intro s _hsmem
    constructor
    · intro b hb
      have hbmem := mem_of_getLast?_eq _ _ hb
      rw [List.mem_filter] at hbmem
      obtain ⟨hb1, hb2⟩ := hbmem
      rw [decide_eq_true_eq] at hb2
      refine ⟨hb1, hb2, ?_, ?_⟩
      · intro bb hbb hlt
        have hsorted2 : ((buysOf ts).filter
            (fun b2 => b2.date < s.date)).Pairwise
            (fun a b2 => a.date ≤ b2.date) := (hs.filter _).filter _
        have hbbmem : bb ∈ (buysOf ts).filter (fun b2 => b2.date < s.date) := by
          rw [List.mem_filter]
          exact ⟨hbb, by rw [decide_eq_true_eq]; exact hlt⟩
        exact pairwise_date_getLast _ hsorted2 bb hbbmem b hb
      · unfold pairPnl
        rw [hb]
        rfl
    · intro hnone
      constructor
      · unfold pairPnl
        rw [hnone]
        rfl
      · intro bb hbb hlt
        have hbbmem : bb ∈ (buysOf ts).filter (fun b2 => b2.date < s.date) := by
          rw [List.mem_filter]
          exact ⟨hbb, by rw [decide_eq_true_eq]; exact hlt⟩
        unfold pairBuy at hnone
        rw [List.getLast?_eq_none_iff] at hnone
        rw [hnone] at hbbmem
        simp at hbbmem
  · unfold tradePnl
    rw [tradePnl_foldl]
    rfl

/-- A sorted three-trade list: two Buys then one Sell; the Sell must pair
with the second (most recent) Buy. -/
def tsW4 : List ATrade :=
  [⟨1, .buy, 10, 1⟩, ⟨2, .buy, 12, 1⟩, ⟨3, .sell, 20, 5⟩]

theorem c4_sell_pairs_most_recent_buy_witness :
    sortedByDate tsW4 ∧ PairingSpec tsW4 :=
  ⟨by simp [sortedByDate, tsW4],
   c4_sell_pairs_most_recent_buy tsW4 (by simp [sortedByDate, tsW4])⟩

/-!
### Claim C5 — defaults when no pair exists
-/

theorem calcTradeMetrics_no_pairs (ts : List ATrade)
    (hp : tradePnl ts = []) :
    calcTradeMetrics ts =
      { totalTrades := (buysOf ts).length, winCount := 0, lossCount := 0,
        winRatePct := 0, avgWin := 0, avgLoss := 0, profitFactor := some 0,
        largestWin := 0, largestLoss := 0 } := by
  cases ts with
  | nil => simp [calcTradeMetrics, buysOf]
  | cons t ts2 =>
    have he : (t :: ts2).isEmpty = false := rfl
    simp [calcTradeMetrics, he, hp]

/-- C5 (amended): whenever pairing produces no completed Buy-Sell pair,
the trade metric set returned by analyze is all zeros **except** total
trades, which equals the number of BUY records in the store (hence 0 only
when there are no Buy records, e.g. an empty store). -/
theorem c5_no_pairs_defaults (snaps : List ℚ) (ts : List ATrade) (rf : ℚ)
    (prev : Option MetricsResult) (hne : ¬ snaps.isEmpty = true)
    (hp : tradePnl ts = []) :
    (analyzePerformance snaps ts rf prev).map
      (fun m => (m.totalTrades, m.winCount, m.lossCount, m.winRatePct,
        m.avgWin, m.avgLoss, m.profitFactor, m.largestWin, m.largestLoss)) =
    some ((buysOf ts).length, 0, 0, 0, 0, 0, some 0, 0, 0) := by
  unfold analyzePerformance
  rw [if_neg hne]
  simp [calcTradeMetrics_no_pairs ts hp]

/-- A single stored BUY record. -/
def bC5 : ATrade := ⟨1, TType.buy, 10, 5⟩

theorem c5_no_pairs_defaults_witness :
    ¬ ([(100 : ℚ)].isEmpty = true) ∧ tradePnl [bC5] = [] ∧
    (analyzePerformance [100] [bC5] 0 none).map
      (fun m => (m.totalTrades, m.winCount, m.lossCount, m.winRatePct,
        m.avgWin, m.avgLoss, m.profitFactor, m.largestWin, m.largestLoss)) =
    some ((buysOf [bC5]).length, 0, 0, 0, 0, 0, some 0, 0, 0) :=
  ⟨by simp, rfl,
   c5_no_pairs_defaults [100] [bC5] 0 none (by simp) rfl⟩

/-- C5 counterexample: a stored history with one BUY record and no
pairable Sell yields `total_trades = 1`, not the all-zero metric set the
claim asserts. -/
theorem c5_unpaired_buys_counted :
    (analyzePerformance [100] [bC5] 0 none).map MetricsResult.totalTrades =
      some 1 ∧ (1 : ℕ) ≠ 0 :=
  ⟨rfl, one_ne_zero⟩

/-!
### Claims C1, C2 — the stale annualized return in the risk metrics
-/

/-- A concrete stored snapshot history (total values in date order). -/
def snapsC1 : List ℚ := [100, 200, 300]

theorem pctChange_snapsC1 : pctChange snapsC1 = [1, 1/2] := by
  norm_num [pctChange, snapsC1]

theorem sampleVar_snapsC1 : sampleVar [1, (1 : ℚ)/2] = 1/8 := by
  norm_num [sampleVar, listMean]

theorem annualizedVolOf_snapsC1_pos : 0 < annualizedVolOf snapsC1 := by
  unfold annualizedVolOf
  rw [pctChange_snapsC1]
  rw [if_neg (by norm_num)]
  unfold sampleStd
  rw [sampleVar_snapsC1]
  positivity

theorem sharpeOf_snapsC1_first : sharpeOf snapsC1 0 0 = 0 := by
  unfold sharpeOf
  rw [pctChange_snapsC1, if_neg (by norm_num)]
  split <;> simp

theorem annualizedReturnOf_snapsC1_pos : 0 < annualizedReturnOf snapsC1 := by
  unfold annualizedReturnOf
  rw [if_pos (by norm_num [snapsC1])]
  have h1 : (snapsC1.getLastD 0 / snapsC1.headI : ℚ) = 3 := by
    norm_num [snapsC1]
  have h2 : ((snapsC1.length : ℕ) : ℝ) = 3 := by norm_num [snapsC1]
  rw [h1, h2]
  have h3 : (252 : ℝ) / 3 = ((84 : ℕ) : ℝ) := by norm_num
  rw [h3, Real.rpow_natCast]
  have h4 : (1 : ℝ) < (((3 : ℚ) : ℝ)) ^ (84 : ℕ) := by
    apply one_lt_pow₀ ?_ (by norm_num)
    norm_num
  nlinarith

theorem sharpeOf_snapsC1_second :
    0 < sharpeOf snapsC1 0 (annualizedReturnOf snapsC1) := by
  unfold sharpeOf
  rw [pctChange_snapsC1, if_neg (by norm_num),
    if_pos annualizedVolOf_snapsC1_pos]
  apply div_pos ?_ annualizedVolOf_snapsC1_pos
  simpa using annualizedReturnOf_snapsC1_pos

/-- C1 (code bug): on the *first* call of a fresh analyzer over the
stored history `[100, 200, 300]` with risk-free rate `0`, the returned
history has at least two return observations and strictly positive
annualized volatility, yet the returned Sharpe ratio is `0` instead of
`(annualizedReturn - riskFreeRate*100) / annualizedVolatility` (which is
strictly positive here): `_calculate_risk_metrics` reads
`self.metrics.get('annualized_return', 0)` before `analyze_performance`
has stored the freshly computed metrics. -/
theorem c1_first_call_sharpe_stale :
    ∃ m, analyzePerformance snapsC1 [] 0 none = some m ∧
      2 ≤ (pctChange snapsC1).length ∧
      0 < m.annualizedVol ∧
      m.sharpe = 0 ∧
      0 < m.annualizedReturn ∧
      m.sharpe ≠ (m.annualizedReturn - ((0 : ℚ) : ℝ) * 100) / m.annualizedVol := by
  have hne : ¬ (snapsC1.isEmpty = true) := by simp [snapsC1]
  have hneq : sharpeOf snapsC1 0 0 ≠
      (annualizedReturnOf snapsC1 - ((0 : ℚ) : ℝ) * 100) /
        annualizedVolOf snapsC1 := by
    rw [sharpeOf_snapsC1_first]
    intro h
    have hpos : 0 < (annualizedReturnOf snapsC1 - ((0 : ℚ) : ℝ) * 100) /
        annualizedVolOf snapsC1 := by
      apply div_pos ?_ annualizedVolOf_snapsC1_pos
      simpa using annualizedReturnOf_snapsC1_pos
    rw [← h] at hpos
    exact lt_irrefl 0 hpos
  unfold analyzePerformance
  rw [if_neg hne]
  exact ⟨_, rfl, by rw [pctChange_snapsC1]; norm_num,
    annualizedVolOf_snapsC1_pos, sharpeOf_snapsC1_first,
    annualizedReturnOf_snapsC1_pos, hneq⟩

/-- C2 (code bug): calling analyze twice in succession on the unchanged
stored history `[100, 200, 300]` (risk-free rate `0`, fresh analyzer)
yields different MetricsResults: the first call computes its Sharpe ratio
from the not-yet-stored cached annualized return (0), the second call
from the annualized return the first call stored. -/
theorem c2_first_call_not_idempotent :
    ∃ m1 m2, analyzePerformance snapsC1 [] 0 none = some m1 ∧
      analyzePerformance snapsC1 [] 0 (some m1) = some m2 ∧
      m1 ≠ m2 := by
  have hne : ¬ (snapsC1.isEmpty = true) := by simp [snapsC1]
  unfold analyzePerformance
  rw [if_neg hne]
  refine ⟨_, _, rfl, rfl, ?_⟩
  intro heq
  have hsh : sharpeOf snapsC1 0 0 =
      sharpeOf snapsC1 0 (annualizedReturnOf snapsC1) :=
    congrArg MetricsResult.sharpe heq
  rw [sharpeOf_snapsC1_first] at hsh
  exact absurd hsh.symm (ne_of_gt sharpeOf_snapsC1_second)
